import Mathlib

/-!
Verification development for the OrpheusDL helper scripts
(`interactive_album_selector.py`, `tui_album_selector.py`, `sync_music.py`,
`scripts/test_qobuz_login.py`).

The Python code is shallowly embedded: every function relevant to the
checked properties is translated into an executable Lean definition that
mirrors the control flow of the source line by line.  Python strings are
modelled by `String` (operating on `String.data` where the source iterates
over characters), Python ints by `Int`/`Nat`, Python `None`-able values by
`Option`, and file-modification times by integers (only their ordering is
used by the source).
-/

/-! ## Selection-list state (both selector variants)

`InteractiveAlbumSelector` and `TUIAlbumSelector` each keep two parallel
lists, `self.selected_albums` and `self.album_urls`.  The URL list always
holds strings; the record list is kept abstract where the record content
is irrelevant. -/

structure SelState (α : Type) where
  selected_albums : List α
  album_urls : List String
  deriving Repr, DecidableEq

/-- `idx = int(num) - 1; 0 <= idx < len(selected_albums)` — the validity
test applied to each token of a `remove i1 i2 ...` command. -/
def validTok (num : Int) (len : Nat) : Bool :=
  decide (0 ≤ num - 1) && decide (num - 1 < (len : Int))

/-- The token-collection loop of `InteractiveAlbumSelector.show_selected_albums`
(lines 315-320): valid tokens become 0-based indices, invalid tokens are
reported (printed) one by one; the loop never aborts. Returns
(collected 0-based indices in token order, reported invalid tokens in order). -/
def collectIndices (len : Nat) : List Int → List Nat × List Int
  | [] => ([], [])
  | num :: rest =>
    let r := collectIndices len rest
    if validTok num len then (((num - 1).toNat) :: r.1, r.2)
    else (r.1, num :: r.2)

/-- The token-collection loop of `TUIAlbumSelector._remove_albums`
(lines 558-564): on the first invalid token the method prints it and
returns immediately, discarding everything. -/
def tuiScan (len : Nat) : List Int → Except Int (List Nat)
  | [] => .ok []
  | num :: rest =>
    if validTok num len then
      match tuiScan len rest with
      | .ok idxs => .ok (((num - 1).toNat) :: idxs)
      | .error e => .error e
    else .error num

/-- Insertion into a descending-sorted list; together with `sortDesc` this
models Python `sorted(indices_to_remove, reverse=True)`. -/
def insertDesc (x : Nat) : List Nat → List Nat
  | [] => [x]
  | y :: ys => if y ≤ x then x :: y :: ys else y :: insertDesc x ys

/-- `sorted(indices_to_remove, reverse=True)`. -/
def sortDesc : List Nat → List Nat
  | [] => []
  | x :: xs => insertDesc x (sortDesc xs)

/-- The pop loop shared by both variants:
`for idx in sorted(indices_to_remove, reverse=True):
   selected_albums.pop(idx); album_urls.pop(idx)`.
`list.pop(idx)` raises `IndexError` when `idx` is out of range, aborting
the loop (the surrounding `except` clause prints a message); the first
`pop` runs on `selected_albums`, so when it raises, `album_urls` is left
untouched for that iteration. -/
def popPairs {α : Type} : List Nat → SelState α → SelState α
  | [], st => st
  | i :: rest, st =>
    if i < st.selected_albums.length then
      if i < st.album_urls.length then
        popPairs rest ⟨st.selected_albums.eraseIdx i, st.album_urls.eraseIdx i⟩
      else ⟨st.selected_albums.eraseIdx i, st.album_urls⟩
    else st

/-- `InteractiveAlbumSelector.show_selected_albums`, branch
`choice.startswith('remove ')` (lines 310-329), applied to already-parsed
integer tokens.  Returns the new state and the list of reported invalid
tokens. -/
def interactiveRemove {α : Type} (numbers : List Int) (st : SelState α) :
    SelState α × List Int :=
  let r := collectIndices st.selected_albums.length numbers
  (popPairs (sortDesc r.1) st, r.2)

/-- `TUIAlbumSelector._remove_albums` (lines 552-577), applied to
already-parsed integer tokens.  Returns the new state and the reported
invalid token, if any. -/
def tuiRemove {α : Type} (numbers : List Int) (st : SelState α) :
    SelState α × Option Int :=
  match tuiScan st.selected_albums.length numbers with
  | .error bad => (st, some bad)
  | .ok idxs => (popPairs (sortDesc idxs) st, none)

/-! ## Python string primitives used by the scripts -/

/-- Python `s.startswith(pre)`. -/
def pyStartswith (s pre : String) : Bool :=
  pre.data.isPrefixOf s.data

/-- Python `s.strip()`: remove leading and trailing whitespace. -/
def pyStrip (s : String) : String :=
  String.mk (((s.data.dropWhile Char.isWhitespace).reverse.dropWhile Char.isWhitespace).reverse)

/-- Big-endian decimal digit characters of `n`, produced with enough fuel
(`decDigitsAux n n` is the full representation for `n > 0`). -/
def decDigitsAux : Nat → Nat → List Char
  | 0, _ => []
  | _ + 1, 0 => []
  | fuel + 1, n => decDigitsAux fuel (n / 10) ++ [Char.ofNat (48 + n % 10)]

/-- Python `str(n)` for a non-negative integer. -/
def pyStrNat (n : Nat) : String :=
  if n = 0 then "0" else String.mk (decDigitsAux n n)

/-- Python `str(i)` for an `int`. -/
def pyStrInt (i : Int) : String :=
  if i < 0 then "-" ++ pyStrNat i.natAbs else pyStrNat i.toNat

/-! ## Album URL reconstruction (`generate_album_url`, both variants)

Album metadata objects are duck-typed in the source: the id-bearing
attributes may be absent, present with value `None`, or present with a
string value.  Each attribute is therefore modelled as
`Option (Option String)`: `none` = attribute absent, `some none` =
attribute present holding `None`, `some (some s)` = attribute present
holding the string `s`. -/

structure AlbumInfo where
  name : String
  artist : String
  release_year : Int
  album_id : Option (Option String) := none
  id : Option (Option String) := none
  albumId : Option (Option String) := none
  albumID : Option (Option String) := none
  deriving Repr, DecidableEq

/-- `hasattr(obj, a) and obj.a` — attribute present with a truthy value
(a non-empty string). -/
def attrTruthy : Option (Option String) → Bool
  | some (some s) => !(s = "")
  | _ => false

/-- The attribute value as a Python value (`None` when absent is never
read by the source on these paths; `attrVal` is only consulted after a
presence check). -/
def attrVal : Option (Option String) → Option String
  | some v => v
  | none => none

/-- `utils.models.DownloadTypeEnum`. -/
inductive DownloadTypeEnum where
  | album | artist | track | playlist
  deriving Repr, DecidableEq

/-- `netlocation_constant` is either a string or a list of strings. -/
inductive Netloc where
  | str (s : String)
  | strs (l : List String)
  deriving Repr, DecidableEq

structure ModuleSettings where
  netlocation_constant : Netloc
  url_constants : List (String × DownloadTypeEnum)
  deriving Repr, DecidableEq

/-- First association-list hit, modelling Python `dict` lookup /
`dict.get` on insertion-ordered dictionaries. -/
def lookupAssoc {α : Type} (l : List (String × α)) (k : String) : Option α :=
  (l.find? (fun p => p.1 = k)).map (fun p => p.2)

/-- The fixed `domain_mapping` table (identical in both variants). -/
def domain_mapping : List (String × String) :=
  [("qobuz", "play.qobuz.com"), ("tidal", "tidal.com"),
   ("spotify", "open.spotify.com"), ("deezer", "deezer.com"),
   ("apple", "music.apple.com")]

/-- The id-resolution chain of `InteractiveAlbumSelector.generate_album_url`
(lines 229-243): stored `album_id` if truthy, else the `id` attribute
verbatim when present, else a scan of `__dict__` for the first truthy
entry among `album_id`, `id`, `albumId`, `albumID`. -/
def resolveId_interactive (info : AlbumInfo) : Option String :=
  if attrTruthy info.album_id then attrVal info.album_id
  else
    match info.id with
    | some v => v
    | none =>
      if attrTruthy info.album_id then attrVal info.album_id
      else if attrTruthy info.id then attrVal info.id
      else if attrTruthy info.albumId then attrVal info.albumId
      else if attrTruthy info.albumID then attrVal info.albumID
      else none

/-- The id-resolution chain of `TUIAlbumSelector.generate_album_url`
(lines 436-440): stored `album_id` if truthy, else the `id` attribute
verbatim when present. -/
def resolveId_tui (info : AlbumInfo) : Option String :=
  if attrTruthy info.album_id then attrVal info.album_id
  else
    match info.id with
    | some v => v
    | none => none

/-- `str(abs(hash(f"{name}_{artist}_{release_year}")))[:10]` — the
pseudo-identifier fallback.  `pyHash` stands for Python's built-in
string hash, an external function of the runtime. -/
def pseudoId (pyHash : String → Int) (info : AlbumInfo) : String :=
  String.mk ((pyStrNat (pyHash
    (info.name ++ "_" ++ info.artist ++ "_" ++ pyStrInt info.release_year)).natAbs).data.take 10)

/-- The sanitized name of the fallback comment:
`"".join(c for c in album_info.name if c.isalnum() or c in (' ', '-', '_')).strip()`.
Python `str.isalnum` is modelled by `Char.isAlphanum` (they agree on
ASCII). -/
def sanitizedName (name : String) : String :=
  pyStrip (String.mk (name.data.filter
    (fun c => c.isAlphanum || c = ' ' || c = '-' || c = '_')))

/-- `f"# {safe_name} ({album_info.release_year}) - {album_info.artist}"` —
the comment fallback produced by the `except` clause of both variants. -/
def commentFallback (info : AlbumInfo) : String :=
  "# " ++ sanitizedName info.name ++ " (" ++ pyStrInt info.release_year ++ ") - " ++ info.artist

/-- The `try` body of `generate_album_url`, shared by both variants up to
the id-resolution chain.  The two failure points inside the `try` block
are the `module_settings[module_name]` dictionary lookup (`KeyError`
when the module is unknown) and `netloc_constant[0]` on an empty list
(`IndexError`); both are caught by the `except` clause, which returns
`commentFallback`. -/
def generate_album_url_core (resolveId : AlbumInfo → Option String)
    (pyHash : String → Int) (module_settings : List (String × ModuleSettings))
    (module_name : String) (info : AlbumInfo) : String :=
  match lookupAssoc module_settings module_name with
  | none => commentFallback info
  | some ms =>
    let netlocOpt := match ms.netlocation_constant with
      | .str s => some s
      | .strs l => l.head?
    match netlocOpt with
    | none => commentFallback info
    | some netloc =>
      let domain := (lookupAssoc domain_mapping netloc).getD (netloc ++ ".com")
      let album_path :=
        if ms.url_constants = [] then "album"
        else ((ms.url_constants.find? (fun p => p.2 = DownloadTypeEnum.album)).map
                (fun p => p.1)).getD "album"
      let album_id : String :=
        match resolveId info with
        | some s => if s = "" then pseudoId pyHash info else s
        | none => pseudoId pyHash info
      "https://" ++ domain ++ "/" ++ album_path ++ "/" ++ album_id

/-- `InteractiveAlbumSelector.generate_album_url` (lines 199-256). -/
def generate_album_url (pyHash : String → Int)
    (module_settings : List (String × ModuleSettings))
    (module_name : String) (info : AlbumInfo) : String :=
  generate_album_url_core resolveId_interactive pyHash module_settings module_name info

/-- `TUIAlbumSelector.generate_album_url` (lines 408-449). -/
def generate_album_url_tui (pyHash : String → Int)
    (module_settings : List (String × ModuleSettings))
    (module_name : String) (info : AlbumInfo) : String :=
  generate_album_url_core resolveId_tui pyHash module_settings module_name info

/-- A console-output event of `generate_album_url`.  The interactive
variant's `except` clause prints
`f"Warning: Could not generate URL for {album_info.name}: {e}"`
(line 253); the event records the album name it embeds (the exception
text is runtime data). -/
inductive ConsoleEffect where
  | urlWarning (albumName : String)
  deriving Repr, DecidableEq

/-- The print side effects of `InteractiveAlbumSelector.generate_album_url`:
the warning of line 253 fires on exactly the failure paths of the `try`
block (unknown module in the settings dictionary, or an empty
`netlocation_constant` list); the success path prints nothing.  The
function mutates no selector state on any path. -/
def generate_album_url_prints (module_settings : List (String × ModuleSettings))
    (module_name : String) (info : AlbumInfo) : List ConsoleEffect :=
  match lookupAssoc module_settings module_name with
  | none => [ConsoleEffect.urlWarning info.name]
  | some ms =>
    match (match ms.netlocation_constant with
           | .str s => some s
           | .strs l => l.head?) with
    | none => [ConsoleEffect.urlWarning info.name]
    | some _ => []

/-- The print side effects of `TUIAlbumSelector.generate_album_url`: its
`except` clause (lines 447-449) contains no print, so no console output
happens on any path. -/
def generate_album_url_tui_prints (_module_settings : List (String × ModuleSettings))
    (_module_name : String) (_info : AlbumInfo) : List ConsoleEffect :=
  []

/-! ## Loading an existing links file (the two variants differ) -/

/-- A `selected_albums` entry: either a record built by
`add_selected_albums` (artist/album/year/module/album_info keys) or the
all-`Unknown` record built by `load_existing_file` (url key). -/
inductive SelRecord where
  | fromAdd (artist album : String) (year : Int) (moduleName : String) (info : AlbumInfo)
  | fromLoad (url : String)
  deriving Repr, DecidableEq

/-- One iteration of the `for line in lines` loop of
`InteractiveAlbumSelector.load_existing_file` (lines 481-498):
`line = line.strip(); if line and not line.startswith('#') and
line.startswith('http'): if line not in album_urls:` — then the URL is
appended to `album_urls` first, and only inside a subsequent
`try: parsed = urlparse(line); ...` does the record get appended and
`loaded_count` incremented; the bare `except: pass` swallows any
`urlparse` failure (for example `ValueError: Invalid IPv6 URL` on a line
like `http://[`), leaving the URL appended with no matching record and
no count.  `urlparseRaises` models whether the external
`urllib.parse.urlparse` raises on its argument. -/
def loadStepI (urlparseRaises : String → Bool) (acc : SelState SelRecord × Nat)
    (rawLine : String) : SelState SelRecord × Nat :=
  let line := pyStrip rawLine
  if !(line = "") && !(pyStartswith line "#") && pyStartswith line "http" then
    if line ∈ acc.1.album_urls then acc
    else
      if urlparseRaises line then
        (⟨acc.1.selected_albums, acc.1.album_urls ++ [line]⟩, acc.2)
      else
        (⟨acc.1.selected_albums ++ [SelRecord.fromLoad line],
          acc.1.album_urls ++ [line]⟩, acc.2 + 1)
  else acc

/-- `InteractiveAlbumSelector.load_existing_file` applied to the lines of
the file; returns the new state and `loaded_count`. -/
def loadLinesI (urlparseRaises : String → Bool) (lines : List String)
    (st : SelState SelRecord) : SelState SelRecord × Nat :=
  lines.foldl (loadStepI urlparseRaises) (st, 0)

/-- One iteration of the loop of `TUIAlbumSelector.load_existing_file`
(lines 719-731): no `urlparse`, no `try`; the URL, the record and the
count are appended/incremented together. -/
def loadStepT (acc : SelState SelRecord × Nat) (rawLine : String) :
    SelState SelRecord × Nat :=
  let line := pyStrip rawLine
  if !(line = "") && !(pyStartswith line "#") && pyStartswith line "http" then
    if line ∈ acc.1.album_urls then acc
    else (⟨acc.1.selected_albums ++ [SelRecord.fromLoad line],
           acc.1.album_urls ++ [line]⟩, acc.2 + 1)
  else acc

/-- `TUIAlbumSelector.load_existing_file` applied to the lines of the
file; returns the new state and `loaded_count`. -/
def loadLinesT (lines : List String) (st : SelState SelRecord) :
    SelState SelRecord × Nat :=
  lines.foldl loadStepT (st, 0)

/-! ## The public mutations of a selector, as a step relation -/

/-- The observable mutations of the two parallel lists:
`add_selected_albums` (one record + one URL appended per album, in
order), the two `remove` commands, `clear` (both lists cleared), and the
two `load_existing_file` variants. -/
inductive AppOp where
  | add (items : List (SelRecord × String))
  | removeI (numbers : List Int)
  | removeT (numbers : List Int)
  | clear
  | loadI (lines : List String)
  | loadT (lines : List String)

/-- Apply one mutation to the state; `urlparseRaises` models the external
`urllib.parse.urlparse` used by the interactive load. -/
def applyOp (urlparseRaises : String → Bool) (st : SelState SelRecord) :
    AppOp → SelState SelRecord
  | .add items =>
    items.foldl (fun s p => ⟨s.selected_albums ++ [p.1], s.album_urls ++ [p.2]⟩) st
  | .removeI numbers => (interactiveRemove numbers st).1
  | .removeT numbers => (tuiRemove numbers st).1
  | .clear => ⟨[], []⟩
  | .loadI lines => (loadLinesI urlparseRaises lines st).1
  | .loadT lines => (loadLinesT lines st).1

/-- Both selectors start with `self.selected_albums = []` and
`self.album_urls = []`. -/
def initialState : SelState SelRecord := ⟨[], []⟩

/-- Apply a sequence of mutations starting from the initial state. -/
def applyOps (urlparseRaises : String → Bool) (ops : List AppOp) : SelState SelRecord :=
  ops.foldl (applyOp urlparseRaises) initialState

/-! ## Directory sync (`sync_music.py`)

File metadata carries a modification time and a byte size; only the
ordering of mtimes is used by the source, so they are modelled as
integers.  Directory trees are modelled as association lists from
relative path to metadata, in walk order. -/

structure FileMeta where
  mtime : Int
  size : Nat
  deriving Repr, DecidableEq

/-- The copy decision of `copy_file_with_structure` (lines 93-103):
`should_copy = True`; if the destination file exists and
`dest_mtime >= src_mtime and src_size == dest_size`, skip. -/
def should_copy (destMeta : Option FileMeta) (src : FileMeta) : Bool :=
  match destMeta with
  | none => true
  | some d => if src.mtime ≤ d.mtime ∧ src.size = d.size then false else true

/-- Filesystem mutations the script can perform. -/
inductive FsEffect where
  | mkdirDest
  | mkdirFor (rel : String)
  | copyFile (rel : String)
  | removeFile (rel : String)
  deriving Repr, DecidableEq

/-- `copy_file_with_structure(src_file, src_base, dest_base, dry_run)`
(lines 82-110): unless `dry_run`, `os.makedirs(dest_dir, exist_ok=True)`
runs unconditionally and `shutil.copy2` runs when the decision says copy.
Returns the emitted effects and the `(was_copied, rel_path)` result. -/
def copy_file_with_structure (destMeta : Option FileMeta) (src : FileMeta)
    (rel : String) (dry_run : Bool) : List FsEffect × Bool × String :=
  let mkEff := if !dry_run then [FsEffect.mkdirFor rel] else []
  let sc := should_copy destMeta src
  let cpEff := if sc && !dry_run then [FsEffect.copyFile rel] else []
  (mkEff ++ cpEff, sc, rel)

/-- What `sync_music` reports and does:
counts of copied / skipped / deleted files and the emitted effects. -/
structure SyncReport where
  copied : Nat
  skipped : Nat
  deleted : Nat
  effects : List FsEffect
  deriving Repr, DecidableEq

/-- One iteration of the copy loop of `sync_music` (lines 193-217). -/
def syncCopyStep (dest : List (String × FileMeta)) (dry_run : Bool)
    (acc : Nat × Nat × List FsEffect) (f : String × FileMeta) :
    Nat × Nat × List FsEffect :=
  let r := copy_file_with_structure (lookupAssoc dest f.1) f.2 f.1 dry_run
  if r.2.1 then (acc.1 + 1, acc.2.1, acc.2.2 ++ r.1)
  else (acc.1, acc.2.1 + 1, acc.2.2 ++ r.1)

/-- Destination files with no source counterpart (the extra files the
deletion phase of lines 219-236 walks over; a file copied during the copy
phase always has a source counterpart, so walking the pre-copy
destination list is equivalent). -/
def extraFiles (source dest : List (String × FileMeta)) : List String :=
  (dest.filter (fun d => !(source.any (fun s => s.1 = d.1)))).map (fun d => d.1)

/-- `MusicSyncer.sync_music(dry_run, delete_extra)` (lines 112-256) as a
report of counts and effects.  `destRootExists` models
`self.dest_dir.exists()` (the destination root is created, unless
`dry_run`, before the source scan, lines 120-123).  After the scan,
`if not source_files: ... return True` (lines 149-151) leaves the
function before the confirm prompt, the copy loop and the deletion
phase, so with an empty source tree only the root-creation effect can
have happened.  The deletion phase is guarded by
`if delete_extra and not dry_run:`; inside it, `os.remove` is guarded
once more by `if not dry_run:` (redundantly, given the outer guard). -/
def sync_music_model (source dest : List (String × FileMeta))
    (destRootExists dry_run delete_extra : Bool) : SyncReport :=
  let rootEff := if !destRootExists && !dry_run then [FsEffect.mkdirDest] else []
  if source = [] then ⟨0, 0, 0, rootEff⟩
  else
    let copyRes := source.foldl (syncCopyStep dest dry_run) (0, 0, [])
    let delRes :=
      if delete_extra && !dry_run then
        ((extraFiles source dest).length,
         (extraFiles source dest).map (fun rel =>
           if !dry_run then [FsEffect.removeFile rel] else []))
      else (0, [])
    ⟨copyRes.1, copyRes.2.1, delRes.1, rootEff ++ copyRes.2.2 ++ delRes.2.flatten⟩

/-! ## `format_size` (`sync_music.py` lines 66-72)

`size_bytes` is divided by `1024.0` at most five times before the
fallback; every intermediate value of a realistic byte count (below
2^53) is an exact binary float, so the arithmetic is modelled exactly
with rationals.  `f"{x:.1f}"` rounds to one decimal place with Python's
round-half-even formatting. -/

/-- Round to the nearest integer, ties to even (the rounding used by
`f"{x:.1f}"` on exactly-representable values). -/
def roundHalfEven (q : ℚ) : ℤ :=
  let f := ⌊q⌋
  let r := q - (f : ℚ)
  if r < 1 / 2 then f
  else if 1 / 2 < r then f + 1
  else if f % 2 = 0 then f else f + 1

/-- `f"{x:.1f}"` for the non-negative values `format_size` produces. -/
def format1f (q : ℚ) : String :=
  let t := (roundHalfEven (q * 10)).toNat
  pyStrNat (t / 10) ++ "." ++ pyStrNat (t % 10)

/-- The unit loop of `format_size`:
`for unit in ['B','KB','MB','GB','TB']: if size_bytes < 1024.0: return
f"{size_bytes:.1f} {unit}"; size_bytes /= 1024.0` then the `PB`
fallback. -/
def fsLoop : List String → ℚ → String
  | [], size => format1f size ++ " PB"
  | u :: rest, size =>
    if size < 1024 then format1f size ++ " " ++ u
    else fsLoop rest (size / 1024)

/-- `MusicSyncer.format_size`. -/
def format_size (size_bytes : ℚ) : String :=
  fsLoop ["B", "KB", "MB", "GB", "TB"] size_bytes

/-! ## Credential loading and login probe (`scripts/test_qobuz_login.py`) -/

/-- The `qobuz` section of `config/settings.json`; `settings.get` yields
`None` for a missing key, so each field is an `Option String`. -/
structure RawQobuzSettings where
  app_id : Option String
  app_secret : Option String
  username : Option String
  password : Option String
  deriving Repr, DecidableEq

/-- Python falsiness of a `settings.get` result: `None` or the empty
string. -/
def falsyOpt : Option String → Bool
  | none => true
  | some s => s = ""

/-- The `credentials` dictionary of `load_credentials_from_settings`
(lines 35-40), in insertion order (note the `email` key is read from
`username`). -/
def requiredFields (s : RawQobuzSettings) : List (String × Option String) :=
  [("app_id", s.app_id), ("app_secret", s.app_secret),
   ("email", s.username), ("password", s.password)]

/-- Outcome of `load_credentials_from_settings`:
`missingFields l` — the `not all(credentials.values())` branch whose
message embeds `', '.join(missing)`, naming exactly the fields in `l`;
`placeholderError` — the placeholder branch, whose fixed message names
no field; `ok` — credentials returned to the caller. -/
inductive CredLoadResult where
  | missingFields (named : List String)
  | placeholderError
  | ok (app_id app_secret email password : String)
  deriving Repr, DecidableEq

/-- `load_credentials_from_settings` (lines 24-67), given a parsed
settings file that does contain a `qobuz` section. -/
def load_credentials_from_settings (s : RawQobuzSettings) : CredLoadResult :=
  if (requiredFields s).any (fun p => falsyOpt p.2) then
    .missingFields (((requiredFields s).filter (fun p => falsyOpt p.2)).map (fun p => p.1))
  else
    let app_id := s.app_id.getD ""
    let app_secret := s.app_secret.getD ""
    let email := s.username.getD ""
    let password := s.password.getD ""
    if app_id = "YOUR_APP_ID" ∨ app_secret = "YOUR_APP_SECRET" ∨
       email = "YOUR_QOBUZ_EMAIL" ∨ password = "YOUR_QOBUZ_PASSWORD" then
      .placeholderError
    else
      .ok app_id app_secret email password

/-- The field names embedded in the failure message of each outcome. -/
def namedFields : CredLoadResult → List String
  | .missingFields l => l
  | _ => []

/-- Number of `qobuz_client.login` calls `run_login_test` (lines 70-96)
performs: it returns before constructing the client when
`load_credentials_from_settings` fails, and otherwise calls `login`
exactly once. -/
def authCallCount (s : RawQobuzSettings) : Nat :=
  match load_credentials_from_settings s with
  | .ok _ _ _ _ => 1
  | _ => 0

/-! ## Claim C5 — the copy decision of the directory sync -/

/-- C5: a source file is copied iff it is absent at the destination, or
the destination's mtime is strictly older than the source's, or the byte
sizes differ; equivalently, a destination counterpart that is
newer-or-equal and size-equal is always skipped and an absent one is
always copied.  Stated both for the returned `was_copied` flag and for
the actual copy effect of a non-dry run. -/
theorem copy_decision_iff (destMeta : Option FileMeta) (src : FileMeta) (rel : String)
    (dry_run : Bool) :
    ((copy_file_with_structure destMeta src rel dry_run).2.1 = true ↔
      destMeta = none ∨ ∃ d, destMeta = some d ∧ (d.mtime < src.mtime ∨ d.size ≠ src.size)) ∧
    (FsEffect.copyFile rel ∈ (copy_file_with_structure destMeta src rel false).1 ↔
      destMeta = none ∨ ∃ d, destMeta = some d ∧ (d.mtime < src.mtime ∨ d.size ≠ src.size)) := by
  cases destMeta with
  | none => simp [copy_file_with_structure, should_copy]
  | some d =>
    by_cases h : src.mtime ≤ d.mtime ∧ src.size = d.size
    · simp [copy_file_with_structure, should_copy, h]
    · simp [copy_file_with_structure, should_copy, h]
      omega

/-! ## Claim C7 — `format_size` -/

/-- The `['B', 'KB', 'MB', 'GB', 'TB']` unit list of `format_size`. -/
def sizeUnits : List String := ["B", "KB", "MB", "GB", "TB"]

/-- C7: `format_size` uses the smallest 1024-based unit keeping the value
below 1024 (unit `i` applies when `1024^i ≤ q < 1024^(i+1)`), falls back
to the last defined unit `PB` once all five listed units are exhausted,
and produces the three claimed example outputs. -/
theorem format_size_spec :
    format_size 1023 = "1023.0 B" ∧ format_size 1536 = "1.5 KB" ∧
    format_size ((1024 : ℚ) ^ 4) = "1.0 TB" ∧
    (∀ (q : ℚ) (i : ℕ), i ≤ 4 → (i = 0 ∨ 1024 ^ i ≤ q) → q < 1024 ^ (i + 1) →
      format_size q = format1f (q / 1024 ^ i) ++ " " ++ sizeUnits.getD i "") ∧
    (∀ q : ℚ, (1024 : ℚ) ^ 5 ≤ q → format_size q = format1f (q / 1024 ^ 5) ++ " PB") := by
  refine ⟨by norm_num [format_size, fsLoop, format1f, roundHalfEven]; decide,
          by norm_num [format_size, fsLoop, format1f, roundHalfEven]; decide,
          by norm_num [format_size, fsLoop, format1f, roundHalfEven]; decide, ?_, ?_⟩
  · intro q i hi h1 h2
    have hp : (0 : ℚ) < 1024 := by norm_num
    interval_cases i
    · norm_num at h2 ⊢
      simp only [format_size, fsLoop, if_pos h2, sizeUnits]
      norm_num
    · have h1' : (1024 : ℚ) ≤ q := by simpa using h1
      norm_num at h2
      have c0 : ¬ q < 1024 := by linarith
      have c1 : q / 1024 < 1024 := by rw [div_lt_iff₀ hp]; norm_num; linarith
      simp only [format_size, fsLoop, if_neg c0, if_pos c1, sizeUnits]
      norm_num
    · have h1' : (1048576 : ℚ) ≤ q := by
        rcases h1 with h | h
        · omega
        · norm_num at h; linarith
      norm_num at h2
      have c0 : ¬ q < 1024 := by linarith
      have c1 : ¬ q / 1024 < 1024 := by rw [not_lt, le_div_iff₀ hp]; norm_num; linarith
      have c2 : q / 1024 / 1024 < 1024 := by
        rw [div_div, div_lt_iff₀ (by norm_num : (0 : ℚ) < 1024 * 1024)]; norm_num; linarith
      simp only [format_size, fsLoop, if_neg c0, if_neg c1, if_pos c2, sizeUnits]
      rw [div_div]
      norm_num
    · have h1' : (1073741824 : ℚ) ≤ q := by
        rcases h1 with h | h
        · omega
        · norm_num at h; linarith
      norm_num at h2
      have c0 : ¬ q < 1024 := by linarith
      have c1 : ¬ q / 1024 < 1024 := by rw [not_lt, le_div_iff₀ hp]; norm_num; linarith
      have c2 : ¬ q / 1024 / 1024 < 1024 := by
        rw [div_div, not_lt, le_div_iff₀ (by norm_num : (0 : ℚ) < 1024 * 1024)]
        norm_num; linarith
      have c3 : q / 1024 / 1024 / 1024 < 1024 := by
        rw [div_div, div_div, div_lt_iff₀ (by norm_num : (0 : ℚ) < 1024 * (1024 * 1024))]
        norm_num; linarith
      simp only [format_size, fsLoop, if_neg c0, if_neg c1, if_neg c2, if_pos c3, sizeUnits]
      rw [div_div, div_div]
      norm_num
    · have h1' : (1099511627776 : ℚ) ≤ q := by
        rcases h1 with h | h
        · omega
        · norm_num at h; linarith
      norm_num at h2
      have c0 : ¬ q < 1024 := by linarith
      have c1 : ¬ q / 1024 < 1024 := by rw [not_lt, le_div_iff₀ hp]; norm_num; linarith
      have c2 : ¬ q / 1024 / 1024 < 1024 := by
        rw [div_div, not_lt, le_div_iff₀ (by norm_num : (0 : ℚ) < 1024 * 1024)]
        norm_num; linarith
      have c3 : ¬ q / 1024 / 1024 / 1024 < 1024 := by
        rw [div_div, div_div, not_lt, le_div_iff₀ (by norm_num : (0 : ℚ) < 1024 * (1024 * 1024))]
        norm_num; linarith
      have c4 : q / 1024 / 1024 / 1024 / 1024 < 1024 := by
        rw [div_div, div_div, div_div,
          div_lt_iff₀ (by norm_num : (0 : ℚ) < 1024 * (1024 * (1024 * 1024)))]
        norm_num; linarith
      simp only [format_size, fsLoop, if_neg c0, if_neg c1, if_neg c2, if_neg c3, if_pos c4,
        sizeUnits]
      rw [div_div, div_div, div_div]
      norm_num
  · intro q h
    have hp : (0 : ℚ) < 1024 := by norm_num
    norm_num at h
    have c0 : ¬ q < 1024 := by linarith
    have c1 : ¬ q / 1024 < 1024 := by rw [not_lt, le_div_iff₀ hp]; norm_num; linarith
    have c2 : ¬ q / 1024 / 1024 < 1024 := by
      rw [div_div, not_lt, le_div_iff₀ (by norm_num : (0 : ℚ) < 1024 * 1024)]
      norm_num; linarith
    have c3 : ¬ q / 1024 / 1024 / 1024 < 1024 := by
      rw [div_div, div_div, not_lt, le_div_iff₀ (by norm_num : (0 : ℚ) < 1024 * (1024 * 1024))]
      norm_num; linarith
    have c4 : ¬ q / 1024 / 1024 / 1024 / 1024 < 1024 := by
      rw [div_div, div_div, div_div,
        not_lt, le_div_iff₀ (by norm_num : (0 : ℚ) < 1024 * (1024 * (1024 * 1024)))]
      norm_num; linarith
    simp only [format_size, fsLoop, if_neg c0, if_neg c1, if_neg c2, if_neg c3, if_neg c4]
    rw [div_div, div_div, div_div, div_div]
    norm_num

/-- Witness for C7: the general characterization applied at 1536 (unit
`KB`) and at `1024^5 * 3 / 2` (the `PB` fallback). -/
theorem format_size_spec_witness :
    format_size 1536 = format1f (1536 / 1024 ^ 1) ++ " " ++ sizeUnits.getD 1 "" ∧
    format_size ((1024 : ℚ) ^ 5 * 3 / 2) =
      format1f (((1024 : ℚ) ^ 5 * 3 / 2) / 1024 ^ 5) ++ " PB" :=
  ⟨format_size_spec.2.2.2.1 1536 1 (by norm_num) (Or.inr (by norm_num)) (by norm_num),
   format_size_spec.2.2.2.2 ((1024 : ℚ) ^ 5 * 3 / 2) (by norm_num)⟩

/-! ## Claims C1, C2, C10 — selection-list removal and the lockstep invariant -/

lemma collectIndices_invalid (len : Nat) (numbers : List Int) :
    (collectIndices len numbers).2 = numbers.filter (fun m => !validTok m len) := by
  induction numbers with
  | nil => simp [collectIndices]
  | cons num rest ih =>
    by_cases h : validTok num len
    · simp [collectIndices, h, ih]
    · simp [collectIndices, h, ih]

lemma tuiScan_char (len : Nat) (numbers : List Int) :
    tuiScan len numbers =
      match numbers.find? (fun m => !validTok m len) with
      | some e => .error e
      | none => .ok (numbers.map (fun m => (m - 1).toNat)) := by
  induction numbers with
  | nil => simp [tuiScan]
  | cons num rest ih =>
    by_cases h : validTok num len
    · simp only [tuiScan, if_pos h, List.find?_cons, h, Bool.not_true, ih, List.map_cons]
      cases hf : rest.find? (fun m => !validTok m len) <;> simp [hf]
    · have h2 : (!validTok num len) = true := by simp [Bool.not_eq_true] at h ⊢; exact h
      simp only [tuiScan, if_neg h, List.find?_cons, h2]

/-- C1 (amended): when a batch-remove command contains an out-of-range
token, the TUI variant removes nothing — the state is returned unchanged
and the reported token is the first invalid one (later invalid tokens go
unreported) — while the interactive variant reports every invalid token
(but, per the counterexample, still removes the in-range indices rather
than aborting the batch). -/
theorem remove_invalid_token_behavior {α : Type} (st : SelState α) (numbers : List Int)
    (h : ∃ m ∈ numbers, validTok m st.selected_albums.length = false) :
    (tuiRemove numbers st).1 = st ∧
    (∃ e, numbers.find? (fun m => !validTok m st.selected_albums.length) = some e ∧
          (tuiRemove numbers st).2 = some e) ∧
    (interactiveRemove numbers st).2 =
      numbers.filter (fun m => !validTok m st.selected_albums.length) := by
  have hs : (numbers.find? (fun m => !validTok m st.selected_albums.length)).isSome := by
    rw [List.find?_isSome]
    obtain ⟨m, hm, hv⟩ := h
    exact ⟨m, hm, by simp [hv]⟩
  obtain ⟨e, he⟩ := Option.isSome_iff_exists.mp hs
  have hts := tuiScan_char st.selected_albums.length numbers
  rw [he] at hts
  refine ⟨?_, ⟨e, he, ?_⟩, ?_⟩
  · simp [tuiRemove, hts]
  · simp [tuiRemove, hts]
  · simp [interactiveRemove, collectIndices_invalid]

/-- Witness for C1: a two-element list, command `remove 1 5`
(TUI: `remove 5 6`). -/
theorem remove_invalid_token_behavior_witness :
    (tuiRemove [1, 5] (⟨["a", "b"], ["u", "v"]⟩ : SelState String)).1 =
      (⟨["a", "b"], ["u", "v"]⟩ : SelState String) ∧
    (∃ e, ([1, 5] : List Int).find?
        (fun m => !validTok m
          (⟨["a", "b"], ["u", "v"]⟩ : SelState String).selected_albums.length) = some e ∧
      (tuiRemove [1, 5] (⟨["a", "b"], ["u", "v"]⟩ : SelState String)).2 = some e) ∧
    (interactiveRemove [1, 5] (⟨["a", "b"], ["u", "v"]⟩ : SelState String)).2 =
      ([1, 5] : List Int).filter
        (fun m => !validTok m
          (⟨["a", "b"], ["u", "v"]⟩ : SelState String).selected_albums.length) :=
  remove_invalid_token_behavior (⟨["a", "b"], ["u", "v"]⟩ : SelState String) [1, 5] (by decide)

/-- Counterexample to C1 as stated: with two selected albums, the
interactive command `remove 1 5` contains the out-of-range token `5`,
yet the record and URL at index 1 are removed (the lists do not stay as
they were), and the TUI command `remove 5 6` reports only the first
invalid token `5`, not every invalid token. -/
theorem remove_invalid_token_counterexample :
    (interactiveRemove [1, 5] (⟨["a", "b"], ["u", "v"]⟩ : SelState String) =
      (⟨["b"], ["v"]⟩, [5])) ∧
    ((⟨["b"], ["v"]⟩ : SelState String) ≠ ⟨["a", "b"], ["u", "v"]⟩) ∧
    (tuiRemove [5, 6] (⟨["a", "b"], ["u", "v"]⟩ : SelState String) =
      (⟨["a", "b"], ["u", "v"]⟩, some 5)) := by
  decide

lemma popPairs_length {α : Type} (idxs : List Nat) (st : SelState α)
    (h : st.selected_albums.length = st.album_urls.length) :
    (popPairs idxs st).selected_albums.length = (popPairs idxs st).album_urls.length := by
  induction idxs generalizing st with
  | nil => exact h
  | cons i rest ih =>
    simp only [popPairs]
    by_cases h1 : i < st.selected_albums.length
    · have h2 : i < st.album_urls.length := h ▸ h1
      rw [if_pos h1, if_pos h2]
      apply ih
      simp [List.length_eraseIdx, h1, h2, h]
    · rw [if_neg h1]
      exact h

lemma startswith_http_nonempty_not_hash (t : String) (h : pyStartswith t "http" = true) :
    t ≠ "" ∧ pyStartswith t "#" = false := by
  rw [pyStartswith, show ("http".data) = ['h', 't', 't', 'p'] from rfl] at h
  cases ht : t.data with
  | nil => rw [ht] at h; simp [List.isPrefixOf] at h
  | cons c cs =>
    rw [ht] at h
    simp only [List.isPrefixOf, Bool.and_eq_true, beq_iff_eq] at h
    constructor
    · intro he
      rw [he] at ht
      simp at ht
    · rw [pyStartswith, show ("#".data) = ['#'] from rfl, ht]
      simp [List.isPrefixOf]
      rw [← h.1]
      decide

lemma loadStepT_eq_loadStepI (acc : SelState SelRecord × Nat) (rawLine : String) :
    loadStepT acc rawLine = loadStepI (fun _ => false) acc rawLine := by
  simp [loadStepT, loadStepI]

lemma loadStepI_eq (u : String → Bool) (acc : SelState SelRecord × Nat) (rawLine : String) :
    loadStepI u acc rawLine =
      if pyStartswith (pyStrip rawLine) "http" = true then
        (if pyStrip rawLine ∈ acc.1.album_urls then acc
         else if u (pyStrip rawLine) = true then
           (⟨acc.1.selected_albums, acc.1.album_urls ++ [pyStrip rawLine]⟩, acc.2)
         else
           (⟨acc.1.selected_albums ++ [SelRecord.fromLoad (pyStrip rawLine)],
             acc.1.album_urls ++ [pyStrip rawLine]⟩, acc.2 + 1))
      else acc := by
  simp only [loadStepI]
  by_cases h : pyStartswith (pyStrip rawLine) "http" = true
  · obtain ⟨hne, hnh⟩ := startswith_http_nonempty_not_hash _ h
    simp [h, hne, hnh]
  · simp [h]

lemma loadStepI_urls (u : String → Bool) (acc : SelState SelRecord × Nat) (rawLine : String) :
    (loadStepI u acc rawLine).1.album_urls =
      if pyStartswith (pyStrip rawLine) "http" = true ∧ pyStrip rawLine ∉ acc.1.album_urls
      then acc.1.album_urls ++ [pyStrip rawLine] else acc.1.album_urls := by
  rw [loadStepI_eq]
  by_cases h : pyStartswith (pyStrip rawLine) "http" = true
  · by_cases hm : pyStrip rawLine ∈ acc.1.album_urls
    · simp [h, hm]
    · by_cases hu : u (pyStrip rawLine) = true
      · simp [h, hm, hu]
      · simp [h, hm, hu]
  · simp [h]

lemma loadFoldI_length (u : String → Bool) :
    ∀ (lines : List String) (acc : SelState SelRecord × Nat),
      (∀ line ∈ lines, u (pyStrip line) = false) →
      acc.1.selected_albums.length = acc.1.album_urls.length →
      (lines.foldl (loadStepI u) acc).1.selected_albums.length =
        (lines.foldl (loadStepI u) acc).1.album_urls.length := by
  intro lines
  induction lines with
  | nil => intro acc hall h; exact h
  | cons line rest ih =>
    intro acc hall h
    simp only [List.foldl_cons]
    apply ih
    · intro l hl
      exact hall l (List.mem_cons_of_mem line hl)
    · rw [loadStepI_eq]
      by_cases hc : pyStartswith (pyStrip line) "http" = true
      · rw [if_pos hc]
        by_cases hm : pyStrip line ∈ acc.1.album_urls
        · rw [if_pos hm]
          exact h
        · rw [if_neg hm,
            if_neg (by simp [hall line (List.mem_cons_self line rest)])]
          simp [h]
      · rw [if_neg hc]
        exact h

lemma addFold_length (items : List (SelRecord × String)) :
    ∀ (st : SelState SelRecord), st.selected_albums.length = st.album_urls.length →
      (items.foldl (fun s p =>
        (⟨s.selected_albums ++ [p.1], s.album_urls ++ [p.2]⟩ : SelState SelRecord))
        st).selected_albums.length =
      (items.foldl (fun s p =>
        (⟨s.selected_albums ++ [p.1], s.album_urls ++ [p.2]⟩ : SelState SelRecord))
        st).album_urls.length := by
  induction items with
  | nil => intro st h; exact h
  | cons p rest ih =>
    intro st h
    simp only [List.foldl_cons]
    apply ih
    simp [h]

lemma applyOp_length (u : String → Bool) (st : SelState SelRecord) (op : AppOp)
    (hop : ∀ lines, op = AppOp.loadI lines → ∀ line ∈ lines, u (pyStrip line) = false)
    (h : st.selected_albums.length = st.album_urls.length) :
    (applyOp u st op).selected_albums.length = (applyOp u st op).album_urls.length := by
  cases op with
  | add items =>
    simp only [applyOp]
    exact addFold_length items st h
  | removeI numbers =>
    simp only [applyOp, interactiveRemove]
    exact popPairs_length _ _ h
  | removeT numbers =>
    simp only [applyOp, tuiRemove]
    cases hts : tuiScan st.selected_albums.length numbers with
    | error e => exact h
    | ok idxs => exact popPairs_length _ _ h
  | clear => simp [applyOp]
  | loadI lines =>
    simp only [applyOp, loadLinesI]
    exact loadFoldI_length u lines (st, 0) (hop lines rfl) h
  | loadT lines =>
    simp only [applyOp, loadLinesT]
    rw [show loadStepT = loadStepI (fun _ => false) from
      funext fun a => funext fun r => loadStepT_eq_loadStepI a r]
    exact loadFoldI_length _ lines (st, 0) (fun l hl => rfl) h

/-- C2 (code bug): the lockstep invariant is the spec's stated design
invariant and every public mutation preserves it except one slip — the
interactive `load_existing_file` appends a URL before the `try` around
`urlparse`, so a line on which `urlparse` raises (such as `http://[`,
which raises `ValueError: Invalid IPv6 URL`) is appended to `album_urls`
with no matching record, leaving the lists at lengths 1 and 0.  For
every operation sequence in which `urlparse` raises on no line fed to an
interactive load, the two lists have equal length at every observable
point. -/
theorem lists_in_lockstep :
    ((applyOps (fun s => s == "http://[")
        [AppOp.loadI ["http://["]]).album_urls.length = 1 ∧
     (applyOps (fun s => s == "http://[")
        [AppOp.loadI ["http://["]]).selected_albums.length = 0) ∧
    (∀ (u : String → Bool) (ops : List AppOp),
      (∀ op ∈ ops, ∀ lines, op = AppOp.loadI lines →
        ∀ line ∈ lines, u (pyStrip line) = false) →
      (applyOps u ops).selected_albums.length = (applyOps u ops).album_urls.length) := by
  refine ⟨by decide, ?_⟩
  intro u ops hops
  suffices key : ∀ (l : List AppOp) (st : SelState SelRecord),
      (∀ op ∈ l, ∀ lines, op = AppOp.loadI lines →
        ∀ line ∈ lines, u (pyStrip line) = false) →
      st.selected_albums.length = st.album_urls.length →
      (l.foldl (applyOp u) st).selected_albums.length =
        (l.foldl (applyOp u) st).album_urls.length from
    key ops initialState hops (by simp [initialState])
  intro l
  induction l with
  | nil => intro st hl h; exact h
  | cons op rest ih =>
    intro st hl h
    simp only [List.foldl_cons]
    exact ih _
      (fun o ho lines he line hline => hl o (List.mem_cons_of_mem op ho) lines he line hline)
      (applyOp_length u st op
        (fun lines he line hline => hl op (List.mem_cons_self op rest) lines he line hline) h)

/-- Witness for C2: a sequence of an add, an interactive load of a line
`urlparse` accepts, and a removal preserves the lockstep invariant. -/
theorem lists_in_lockstep_witness :
    (applyOps (fun _ => false)
      [AppOp.add [(SelRecord.fromLoad "u0", "u0")], AppOp.loadI ["https://y.example"],
       AppOp.removeI [1]]).selected_albums.length =
    (applyOps (fun _ => false)
      [AppOp.add [(SelRecord.fromLoad "u0", "u0")], AppOp.loadI ["https://y.example"],
       AppOp.removeI [1]]).album_urls.length :=
  lists_in_lockstep.2 (fun _ => false)
    [AppOp.add [(SelRecord.fromLoad "u0", "u0")], AppOp.loadI ["https://y.example"],
     AppOp.removeI [1]]
    (fun _ _ _ _ _ _ => rfl)

lemma eraseIdx_twice {α : Type} (l : List α) (i : Nat) (h : i + 1 < l.length) :
    (l.eraseIdx i).eraseIdx i = l.take i ++ l.drop (i + 2) := by
  induction l generalizing i with
  | nil => simp at h
  | cons x xs ih =>
    cases i with
    | zero =>
      simp only [List.eraseIdx_zero, List.tail_cons, List.take_zero, List.nil_append]
      cases xs with
      | nil => simp at h
      | cons y ys => simp
    | succ j =>
      simp only [List.eraseIdx_cons_succ, List.take_succ_cons, List.drop_succ_cons,
        List.cons_append]
      rw [ih]
      simp at h
      omega

/-- C10: in both variants, a remove command repeating the same in-range
1-based index `n` (with `n` strictly below the list length) pops position
`n - 1` twice, removing one record per token: the records removed are
the one at 1-based position `n` and the one originally at position
`n + 1`, leaving `take (n-1) ++ drop (n+1)` of each list. -/
theorem repeated_index_remove {α : Type} (sel : List α) (urls : List String) (n : Nat)
    (h1 : 1 ≤ n) (h2 : n < sel.length) (hu : urls.length = sel.length) :
    interactiveRemove [(n : Int), (n : Int)] ⟨sel, urls⟩ =
      (⟨sel.take (n - 1) ++ sel.drop (n + 1), urls.take (n - 1) ++ urls.drop (n + 1)⟩, []) ∧
    tuiRemove [(n : Int), (n : Int)] ⟨sel, urls⟩ =
      (⟨sel.take (n - 1) ++ sel.drop (n + 1), urls.take (n - 1) ++ urls.drop (n + 1)⟩, none) := by
  have hv : validTok (n : Int) sel.length = true := by
    simp only [validTok, Bool.and_eq_true, decide_eq_true_eq]
    omega
  have htn : ((n : Int) - 1).toNat = n - 1 := by omega
  have hps : popPairs (sortDesc [n - 1, n - 1]) (⟨sel, urls⟩ : SelState α) =
      ⟨sel.take (n - 1) ++ sel.drop (n + 1), urls.take (n - 1) ++ urls.drop (n + 1)⟩ := by
    have hsd : sortDesc [n - 1, n - 1] = [n - 1, n - 1] := by
      simp [sortDesc, insertDesc]
    rw [hsd]
    have e1 : n - 1 < sel.length := by omega
    have e2 : n - 1 < urls.length := by omega
    simp only [popPairs, e1, e2, if_pos]
    have e3 : n - 1 < (sel.eraseIdx (n - 1)).length := by
      rw [List.length_eraseIdx]
      simp [e1]
      omega
    have e4 : n - 1 < (urls.eraseIdx (n - 1)).length := by
      rw [List.length_eraseIdx]
      simp [e2]
      omega
    simp only [popPairs, e3, e4, if_pos]
    have key : n - 1 + 1 < sel.length := by omega
    have keyu : n - 1 + 1 < urls.length := by omega
    rw [eraseIdx_twice sel (n - 1) key, eraseIdx_twice urls (n - 1) keyu]
    have : n - 1 + 2 = n + 1 := by omega
    rw [this]
  constructor
  · simp only [interactiveRemove, collectIndices, hv, if_pos, htn]
    exact congrArg (fun s => (s, ([] : List Int))) hps
  · simp only [tuiRemove, tuiScan, hv, if_pos, htn]
    exact congrArg (fun s => (s, (none : Option Int))) hps

/-- Witness for C10: `remove 2 2` on a three-element list removes the
records at 1-based positions 2 and 3. -/
theorem repeated_index_remove_witness :
    interactiveRemove [(2 : Int), (2 : Int)]
        (⟨["a", "b", "c"], ["u", "v", "w"]⟩ : SelState String) =
      (⟨["a", "b", "c"].take 1 ++ ["a", "b", "c"].drop 3,
        ["u", "v", "w"].take 1 ++ ["u", "v", "w"].drop 3⟩, []) ∧
    tuiRemove [(2 : Int), (2 : Int)]
        (⟨["a", "b", "c"], ["u", "v", "w"]⟩ : SelState String) =
      (⟨["a", "b", "c"].take 1 ++ ["a", "b", "c"].drop 3,
        ["u", "v", "w"].take 1 ++ ["u", "v", "w"].drop 3⟩, none) :=
  repeated_index_remove ["a", "b", "c"] ["u", "v", "w"] 2 (by decide) (by decide) (by decide)

/-! ## Claim C8 — loading a links file -/

lemma loadFoldI_mem (u : String → Bool) (lines : List String)
    (acc : SelState SelRecord × Nat) (l : String) :
    l ∈ (lines.foldl (loadStepI u) acc).1.album_urls ↔
      l ∈ acc.1.album_urls ∨ (l ∈ lines.map pyStrip ∧ pyStartswith l "http" = true) := by
  induction lines generalizing acc with
  | nil => simp
  | cons line rest ih =>
    simp only [List.foldl_cons, List.map_cons, List.mem_cons]
    rw [ih, loadStepI_urls]
    by_cases h : pyStartswith (pyStrip line) "http" = true
    · by_cases hm : pyStrip line ∈ acc.1.album_urls
      · rw [if_neg (fun hc => hc.2 hm)]
        constructor
        · rintro (h1 | ⟨h2, h3⟩)
          · exact Or.inl h1
          · exact Or.inr ⟨Or.inr h2, h3⟩
        · rintro (h1 | ⟨heq | hmem, h3⟩)
          · exact Or.inl h1
          · exact Or.inl (heq ▸ hm)
          · exact Or.inr ⟨hmem, h3⟩
      · rw [if_pos ⟨h, hm⟩]
        simp only [List.mem_append, List.mem_singleton]
        constructor
        · rintro ((h1 | heq) | ⟨h2, h3⟩)
          · exact Or.inl h1
          · exact Or.inr ⟨Or.inl heq, heq ▸ h⟩
          · exact Or.inr ⟨Or.inr h2, h3⟩
        · rintro (h1 | ⟨heq | hmem, h3⟩)
          · exact Or.inl (Or.inl h1)
          · exact Or.inl (Or.inr heq)
          · exact Or.inr ⟨hmem, h3⟩
    · rw [if_neg (fun hc => h hc.1)]
      constructor
      · rintro (h1 | ⟨h2, h3⟩)
        · exact Or.inl h1
        · exact Or.inr ⟨Or.inr h2, h3⟩
      · rintro (h1 | ⟨heq | hmem, h3⟩)
        · exact Or.inl h1
        · exact absurd (heq ▸ h3) h
        · exact Or.inr ⟨hmem, h3⟩

lemma loadFoldI_noop (u : String → Bool) (lines : List String) (st : SelState SelRecord)
    (c : Nat)
    (h : ∀ line ∈ lines, pyStartswith (pyStrip line) "http" = true →
      pyStrip line ∈ st.album_urls) :
    lines.foldl (loadStepI u) (st, c) = (st, c) := by
  induction lines with
  | nil => rfl
  | cons line rest ih =>
    simp only [List.foldl_cons]
    have hstep : loadStepI u (st, c) line = (st, c) := by
      rw [loadStepI_eq]
      by_cases hh : pyStartswith (pyStrip line) "http" = true
      · rw [if_pos hh, if_pos (h line (List.mem_cons_self line rest) hh)]
      · rw [if_neg hh]
    rw [hstep]
    exact ih (fun l hl hhl => h l (List.mem_cons_of_mem line hl) hhl)

lemma loadLinesT_eq_loadLinesI (lines : List String) (st : SelState SelRecord) :
    loadLinesT lines st = loadLinesI (fun _ => false) lines st := by
  simp only [loadLinesT, loadLinesI]
  rw [show loadStepT = loadStepI (fun _ => false) from
    funext fun a => funext fun r => loadStepT_eq_loadStepI a r]

/-- C8: in both variants, the URLs present after a load are exactly the
previous ones plus the stripped lines starting with `http` (lines
starting with `#` or any other text are ignored); re-loading the same
lines — under any behaviour of the external `urlparse` — is a no-op that
adds zero entries, because the duplicate check against `album_urls`
fires before anything else; and the claimed one-http-line-one-comment
example loads exactly one entry (the example line `https://x.example/a`
is one `urlparse` accepts). -/
theorem load_links_file_spec :
    (∀ (u : String → Bool) (lines : List String) (st : SelState SelRecord) (l : String),
      (l ∈ (loadLinesI u lines st).1.album_urls ↔
        l ∈ st.album_urls ∨ (l ∈ lines.map pyStrip ∧ pyStartswith l "http" = true)) ∧
      (l ∈ (loadLinesT lines st).1.album_urls ↔
        l ∈ st.album_urls ∨ (l ∈ lines.map pyStrip ∧ pyStartswith l "http" = true))) ∧
    (∀ (u u2 : String → Bool) (lines : List String) (st : SelState SelRecord),
      loadLinesI u2 lines (loadLinesI u lines st).1 = ((loadLinesI u lines st).1, 0) ∧
      loadLinesT lines (loadLinesT lines st).1 = ((loadLinesT lines st).1, 0)) ∧
    (∀ u : String → Bool, u "https://x.example/a" = false →
      loadLinesI u ["https://x.example/a", "# comment"] initialState =
        (⟨[SelRecord.fromLoad "https://x.example/a"], ["https://x.example/a"]⟩, 1)) ∧
    (loadLinesT ["https://x.example/a", "# comment"] initialState =
      (⟨[SelRecord.fromLoad "https://x.example/a"], ["https://x.example/a"]⟩, 1)) := by
  have hnoop : ∀ (u u2 : String → Bool) (lines : List String) (st : SelState SelRecord),
      loadLinesI u2 lines (loadLinesI u lines st).1 = ((loadLinesI u lines st).1, 0) := by
    intro u u2 lines st
    apply loadFoldI_noop
    intro line hl hhl
    exact (loadFoldI_mem u lines (st, 0) (pyStrip line)).mpr
      (Or.inr ⟨List.mem_map_of_mem pyStrip hl, hhl⟩)
  refine ⟨?_, ?_, ?_, ?_⟩
  · intro u lines st l
    refine ⟨loadFoldI_mem u lines (st, 0) l, ?_⟩
    rw [loadLinesT_eq_loadLinesI]
    exact loadFoldI_mem (fun _ => false) lines (st, 0) l
  · intro u u2 lines st
    refine ⟨hnoop u u2 lines st, ?_⟩
    rw [loadLinesT_eq_loadLinesI, loadLinesT_eq_loadLinesI]
    exact hnoop (fun _ => false) (fun _ => false) lines st
  · intro u hu
    have hs : pyStrip "https://x.example/a" = "https://x.example/a" := by decide
    have h1 : loadStepI u (initialState, 0) "https://x.example/a" =
        ((⟨[SelRecord.fromLoad "https://x.example/a"],
           ["https://x.example/a"]⟩ : SelState SelRecord), 1) := by
      rw [loadStepI_eq, hs]
      rw [if_pos (by decide), if_neg (by decide), if_neg (by simp [hu])]
      rfl
    show List.foldl (loadStepI u) (initialState, 0) ["https://x.example/a", "# comment"] = _
    rw [List.foldl_cons, h1, List.foldl_cons]
    have h2 : loadStepI u
        ((⟨[SelRecord.fromLoad "https://x.example/a"],
           ["https://x.example/a"]⟩ : SelState SelRecord), 1) "# comment" =
        ((⟨[SelRecord.fromLoad "https://x.example/a"],
           ["https://x.example/a"]⟩ : SelState SelRecord), 1) := by
      rw [loadStepI_eq]
      rw [if_neg (by decide)]
    rw [h2, List.foldl_nil]
  · decide

/-- Witness for C8: the concrete first-load count, at an `urlparse`
model that accepts the example line. -/
theorem load_links_file_spec_witness :
    loadLinesI (fun _ => false) ["https://x.example/a", "# comment"] initialState =
      (⟨[SelRecord.fromLoad "https://x.example/a"], ["https://x.example/a"]⟩, 1) :=
  load_links_file_spec.2.2.1 (fun _ => false) rfl

/-! ## Claims C3, C4 — URL reconstruction: fallback comment and pseudo-identifier -/

lemma mem_of_mem_dropWhile {α : Type} (p : α → Bool) (l : List α) (c : α)
    (h : c ∈ l.dropWhile p) : c ∈ l := by
  induction l with
  | nil => simp at h
  | cons x xs ih =>
    rw [List.dropWhile_cons] at h
    split at h
    · exact List.mem_cons_of_mem x (ih h)
    · exact h

lemma mem_of_mem_pyStrip (s : String) (c : Char) (h : c ∈ (pyStrip s).data) : c ∈ s.data := by
  simp only [pyStrip] at h
  have h1 : c ∈ ((s.data.dropWhile Char.isWhitespace).reverse.dropWhile
      Char.isWhitespace).reverse := h
  rw [List.mem_reverse] at h1
  have h2 := mem_of_mem_dropWhile _ _ _ h1
  rw [List.mem_reverse] at h2
  exact mem_of_mem_dropWhile _ _ _ h2

/-- C3 (amended): on either failure path inside the `try` block (unknown
module in the settings dictionary, or an empty `netlocation_constant`
list), both variants return — rather than raise — the comment fallback
`"# {safe_name} ({year}) - {artist}"`, in which only the album-name
portion is sanitized to alphanumeric/space/hyphen/underscore characters;
the year and artist are inserted verbatim (so, per the counterexample,
the whole line can contain other characters).  Neither variant mutates
selector state, and the TUI variant prints nothing; but the interactive
variant is not free of side effects: on exactly the failure paths it
prints the line-253 warning naming the album, while on the success path
it prints nothing. -/
theorem generate_album_url_failure_fallback (pyHash : String → Int)
    (module_settings : List (String × ModuleSettings)) (module_name : String)
    (info : AlbumInfo)
    (h : lookupAssoc module_settings module_name = none ∨
         ∃ ms, lookupAssoc module_settings module_name = some ms ∧
           ms.netlocation_constant = Netloc.strs []) :
    generate_album_url pyHash module_settings module_name info = commentFallback info ∧
    generate_album_url_tui pyHash module_settings module_name info = commentFallback info ∧
    commentFallback info =
      "# " ++ sanitizedName info.name ++ " (" ++ pyStrInt info.release_year ++ ") - "
        ++ info.artist ∧
    (∀ c ∈ (sanitizedName info.name).data,
      (c.isAlphanum || c = ' ' || c = '-' || c = '_') = true) ∧
    generate_album_url_prints module_settings module_name info =
      [ConsoleEffect.urlWarning info.name] ∧
    generate_album_url_tui_prints module_settings module_name info = [] ∧
    (∀ (s2 : List (String × ModuleSettings)) (m2 nl2 : String) (ms2 : ModuleSettings)
       (i2 : AlbumInfo), lookupAssoc s2 m2 = some ms2 →
       ms2.netlocation_constant = Netloc.str nl2 →
       generate_album_url_prints s2 m2 i2 = []) := by
  have hcf : ∀ (resolveId : AlbumInfo → Option String),
      generate_album_url_core resolveId pyHash module_settings module_name info =
        commentFallback info := by
    intro resolveId
    rcases h with h | ⟨ms, hms, hnl⟩
    · simp [generate_album_url_core, h]
    · simp [generate_album_url_core, hms, hnl]
  have hpr : generate_album_url_prints module_settings module_name info =
      [ConsoleEffect.urlWarning info.name] := by
    rcases h with h | ⟨ms, hms, hnl⟩
    · simp [generate_album_url_prints, h]
    · simp [generate_album_url_prints, hms, hnl]
  refine ⟨hcf _, hcf _, rfl, ?_, hpr, rfl, ?_⟩
  · intro c hc
    have hc2 := mem_of_mem_pyStrip _ _ hc
    have hc3 : c ∈ info.name.data.filter
        (fun c => c.isAlphanum || c = ' ' || c = '-' || c = '_') := hc2
    rw [List.mem_filter] at hc3
    exact hc3.2
  · intro s2 m2 nl2 ms2 i2 hl2 hnl2
    simp [generate_album_url_prints, hl2, hnl2]

/-- Witness for C3: an empty settings table makes the lookup fail. -/
theorem generate_album_url_failure_fallback_witness :
    generate_album_url (fun _ => 0) [] "qobuz"
        { name := "X", artist := "A/B", release_year := 2000 } =
      commentFallback { name := "X", artist := "A/B", release_year := 2000 } ∧
    generate_album_url_tui (fun _ => 0) [] "qobuz"
        { name := "X", artist := "A/B", release_year := 2000 } =
      commentFallback { name := "X", artist := "A/B", release_year := 2000 } ∧
    commentFallback { name := "X", artist := "A/B", release_year := 2000 } =
      "# " ++ sanitizedName "X" ++ " (" ++ pyStrInt 2000 ++ ") - " ++ "A/B" ∧
    (∀ c ∈ (sanitizedName "X").data,
      (c.isAlphanum || c = ' ' || c = '-' || c = '_') = true) ∧
    generate_album_url_prints [] "qobuz"
        { name := "X", artist := "A/B", release_year := 2000 } =
      [ConsoleEffect.urlWarning "X"] ∧
    generate_album_url_tui_prints [] "qobuz"
        { name := "X", artist := "A/B", release_year := 2000 } = [] ∧
    (∀ (s2 : List (String × ModuleSettings)) (m2 nl2 : String) (ms2 : ModuleSettings)
       (i2 : AlbumInfo), lookupAssoc s2 m2 = some ms2 →
       ms2.netlocation_constant = Netloc.str nl2 →
       generate_album_url_prints s2 m2 i2 = []) :=
  generate_album_url_failure_fallback (fun _ => 0) [] "qobuz"
    { name := "X", artist := "A/B", release_year := 2000 } (Or.inl rfl)

/-- Counterexample to C3 as stated: on the failure path the artist string
is embedded verbatim, so the comment line for artist `A/B` contains `/`,
which is neither alphanumeric, space, hyphen, underscore, nor any of the
fixed punctuation characters of the comment template; and on that same
failure path the interactive variant prints a warning (line 253), so the
function does not perform "no side effects" either. -/
theorem generate_album_url_sanitization_counterexample :
    generate_album_url (fun _ => 0) [] "qobuz"
        { name := "X", artist := "A/B", release_year := 2000 } = "# X (2000) - A/B" ∧
    '/' ∈ ("# X (2000) - A/B").data ∧
    ¬ (('/').isAlphanum || '/' = ' ' || '/' = '-' || '/' = '_' ||
       '/' = '#' || '/' = '(' || '/' = ')') = true ∧
    generate_album_url_prints [] "qobuz"
        { name := "X", artist := "A/B", release_year := 2000 } =
      [ConsoleEffect.urlWarning "X"] ∧
    ([ConsoleEffect.urlWarning "X"] : List ConsoleEffect) ≠ [] := by
  decide

lemma decDigitsAux_digits (fuel : Nat) :
    ∀ (n : Nat), ∀ c ∈ decDigitsAux fuel n, c.isDigit = true := by
  induction fuel with
  | zero => intro n c hc; simp [decDigitsAux] at hc
  | succ f ih =>
    intro n c hc
    cases n with
    | zero => simp [decDigitsAux] at hc
    | succ m =>
      simp only [decDigitsAux, List.mem_append, List.mem_singleton] at hc
      rcases hc with hc | hc
      · exact ih _ c hc
      · subst hc
        have hlt : (m + 1) % 10 < 10 := Nat.mod_lt _ (by norm_num)
        set k := (m + 1) % 10 with hk
        interval_cases k <;> decide

lemma decDigitsAux_length_ge (k : Nat) : ∀ (fuel n : Nat), 10 ^ k ≤ n → n ≤ fuel →
    k + 1 ≤ (decDigitsAux fuel n).length := by
  induction k with
  | zero =>
    intro fuel n h1 h2
    cases fuel with
    | zero => simp at h1 h2; omega
    | succ f =>
      cases n with
      | zero => simp at h1
      | succ m => simp [decDigitsAux]
  | succ k ih =>
    intro fuel n h1 h2
    have hpow : 0 < 10 ^ (k + 1) := Nat.pos_pow_of_pos _ (by norm_num)
    cases fuel with
    | zero => omega
    | succ f =>
      cases n with
      | zero => omega
      | succ m =>
        simp only [decDigitsAux, List.length_append, List.length_cons, List.length_nil]
        have hdiv : 10 ^ k ≤ (m + 1) / 10 := by
          rw [Nat.le_div_iff_mul_le (by norm_num : 0 < 10)]
          rw [pow_succ] at h1
          omega
        have hfuel : (m + 1) / 10 ≤ f := by
          have := Nat.div_lt_self (Nat.succ_pos m) (by norm_num : 1 < 10)
          omega
        have := ih f ((m + 1) / 10) hdiv hfuel
        omega

lemma pyStrNat_digits (n : Nat) : ∀ c ∈ (pyStrNat n).data, c.isDigit = true := by
  rw [pyStrNat]
  split
  · intro c hc
    simp only [show ("0".data) = ['0'] from rfl, List.mem_singleton] at hc
    subst hc
    decide
  · exact decDigitsAux_digits n n

lemma resolveId_none_of_no_attrs (info : AlbumInfo) (h1 : info.album_id = none)
    (h2 : info.id = none) (h3 : info.albumId = none) (h4 : info.albumID = none) :
    resolveId_interactive info = none ∧ resolveId_tui info = none := by
  constructor
  · simp [resolveId_interactive, h1, h2, h3, h4, attrTruthy]
  · simp [resolveId_tui, h1, h2, attrTruthy]

/-- C4 (amended): for an album with no identifier attribute, two records
agreeing on name, artist and year are identical, so the reconstruction
is deterministic in (service, name, artist, year) for a fixed runtime
hash function; the URL built on the success path ends in the
pseudo-identifier `str(abs(hash(name_artist_year)))[:10]`, which
consists only of decimal digits and has at most 10 of them — exactly 10
only when the absolute hash value is at least `10^9` (it is not always a
10-digit string, per the counterexample). -/
theorem pseudo_identifier_spec (pyHash : String → Int) (info : AlbumInfo)
    (h1 : info.album_id = none) (h2 : info.id = none) (h3 : info.albumId = none)
    (h4 : info.albumID = none) :
    (∀ (info2 : AlbumInfo), info2.name = info.name → info2.artist = info.artist →
       info2.release_year = info.release_year → info2.album_id = none → info2.id = none →
       info2.albumId = none → info2.albumID = none → info2 = info) ∧
    (∀ (s : List (String × ModuleSettings)) (m nl : String) (ms : ModuleSettings),
       lookupAssoc s m = some ms → ms.netlocation_constant = Netloc.str nl →
       generate_album_url pyHash s m info =
         "https://" ++ ((lookupAssoc domain_mapping nl).getD (nl ++ ".com")) ++ "/" ++
           (if ms.url_constants = [] then "album"
            else ((ms.url_constants.find? (fun p => p.2 = DownloadTypeEnum.album)).map
                    (fun p => p.1)).getD "album") ++ "/" ++ pseudoId pyHash info ∧
       generate_album_url_tui pyHash s m info =
         "https://" ++ ((lookupAssoc domain_mapping nl).getD (nl ++ ".com")) ++ "/" ++
           (if ms.url_constants = [] then "album"
            else ((ms.url_constants.find? (fun p => p.2 = DownloadTypeEnum.album)).map
                    (fun p => p.1)).getD "album") ++ "/" ++ pseudoId pyHash info) ∧
    (∀ c ∈ (pseudoId pyHash info).data, c.isDigit = true) ∧
    (pseudoId pyHash info).length ≤ 10 ∧
    (10 ^ 9 ≤ (pyHash (info.name ++ "_" ++ info.artist ++ "_" ++
        pyStrInt info.release_year)).natAbs → (pseudoId pyHash info).length = 10) := by
  obtain ⟨hri, hrt⟩ := resolveId_none_of_no_attrs info h1 h2 h3 h4
  refine ⟨?_, ?_, ?_, ?_, ?_⟩
  · intro info2 e1 e2 e3 e4 e5 e6 e7
    cases info2
    cases info
    simp_all
  · intro s m nl ms hl hnl
    constructor
    · simp [generate_album_url, generate_album_url_core, hl, hnl, hri]
    · simp [generate_album_url_tui, generate_album_url_core, hl, hnl, hrt]
  · intro c hc
    have hc2 : c ∈ (pyStrNat (pyHash (info.name ++ "_" ++ info.artist ++ "_" ++
        pyStrInt info.release_year)).natAbs).data := by
      have := List.take_subset 10 (pyStrNat (pyHash (info.name ++ "_" ++ info.artist ++ "_" ++
        pyStrInt info.release_year)).natAbs).data
      exact this hc
    exact pyStrNat_digits _ c hc2
  · show (List.take 10 _).length ≤ 10
    rw [List.length_take]
    omega
  · intro hbig
    show (List.take 10 _).length = 10
    rw [List.length_take]
    have hne : (pyHash (info.name ++ "_" ++ info.artist ++ "_" ++
        pyStrInt info.release_year)).natAbs ≠ 0 := by
      have : 0 < 10 ^ 9 := by norm_num
      omega
    have hlen : 10 ≤ (pyStrNat (pyHash (info.name ++ "_" ++ info.artist ++ "_" ++
        pyStrInt info.release_year)).natAbs).data.length := by
      rw [pyStrNat, if_neg hne]
      show 10 ≤ (decDigitsAux _ _).length
      have := decDigitsAux_length_ge 9 _ _ hbig le_rfl
      omega
    omega

/-- Witness for C4: a runtime hash value of 1234567890123 (at least
`10^9`) yields a pseudo-identifier of exactly 10 digits. -/
theorem pseudo_identifier_spec_witness :
    (pseudoId (fun _ => 1234567890123)
      { name := "A", artist := "B", release_year := 2000 }).length = 10 :=
  (pseudo_identifier_spec (fun _ => 1234567890123)
    { name := "A", artist := "B", release_year := 2000 }
    rfl rfl rfl rfl).2.2.2.2 (by norm_num)

/-- Counterexample to C4 as stated: a runtime hash value of 5 (possible
for Python's unpinned built-in string hash) yields the pseudo-identifier
`"5"` — one digit, not a 10-digit string — embedded in the generated
URL. -/
theorem pseudo_identifier_counterexample :
    generate_album_url (fun _ => 5)
        [("qobuz", ⟨Netloc.str "qobuz", [("album", DownloadTypeEnum.album)]⟩)] "qobuz"
        { name := "A", artist := "B", release_year := 2000 } =
      "https://play.qobuz.com/album/5" ∧
    (pseudoId (fun _ => 5) { name := "A", artist := "B", release_year := 2000 }).length = 1 ∧
    (1 : Nat) ≠ 10 := by
  decide

/-! ## Claim C9 — credential loading and the login probe -/

/-- C9 (amended): empty or missing required fields abort the probe before
any authentication call with a message naming exactly (and all of) the
offending fields; placeholder values also abort before any
authentication call but with a generic message naming no field; with
all four fields present and non-placeholder, exactly one authentication
call is performed. -/
theorem credential_gate :
    (∀ s : RawQobuzSettings,
      (∃ p ∈ requiredFields s, falsyOpt p.2 = true) →
      load_credentials_from_settings s =
        .missingFields (((requiredFields s).filter (fun p => falsyOpt p.2)).map
          (fun p => p.1)) ∧
      (∀ p ∈ requiredFields s, falsyOpt p.2 = true →
        p.1 ∈ namedFields (load_credentials_from_settings s)) ∧
      authCallCount s = 0) ∧
    (∀ s : RawQobuzSettings,
      (∀ p ∈ requiredFields s, falsyOpt p.2 = false) →
      (s.app_id.getD "" = "YOUR_APP_ID" ∨ s.app_secret.getD "" = "YOUR_APP_SECRET" ∨
       s.username.getD "" = "YOUR_QOBUZ_EMAIL" ∨ s.password.getD "" = "YOUR_QOBUZ_PASSWORD") →
      load_credentials_from_settings s = .placeholderError ∧
      namedFields (load_credentials_from_settings s) = [] ∧
      authCallCount s = 0) ∧
    (∀ s : RawQobuzSettings,
      (∀ p ∈ requiredFields s, falsyOpt p.2 = false) →
      ¬(s.app_id.getD "" = "YOUR_APP_ID" ∨ s.app_secret.getD "" = "YOUR_APP_SECRET" ∨
        s.username.getD "" = "YOUR_QOBUZ_EMAIL" ∨ s.password.getD "" = "YOUR_QOBUZ_PASSWORD") →
      authCallCount s = 1) := by
  refine ⟨?_, ?_, ?_⟩
  · intro s h
    have hany : (requiredFields s).any (fun p => falsyOpt p.2) = true := by
      rw [List.any_eq_true]
      obtain ⟨p, hp, hf⟩ := h
      exact ⟨p, hp, hf⟩
    have hres : load_credentials_from_settings s =
        .missingFields (((requiredFields s).filter (fun p => falsyOpt p.2)).map
          (fun p => p.1)) := by
      rw [load_credentials_from_settings, if_pos hany]
    refine ⟨hres, ?_, ?_⟩
    · intro p hp hf
      rw [hres]
      simp only [namedFields, List.mem_map]
      exact ⟨p, List.mem_filter.mpr ⟨hp, hf⟩, rfl⟩
    · rw [authCallCount, hres]
  · intro s hall hph
    have hany : (requiredFields s).any (fun p => falsyOpt p.2) = false := by
      rw [List.any_eq_false]
      intro p hp
      simp [hall p hp]
    have hres : load_credentials_from_settings s = .placeholderError := by
      rw [load_credentials_from_settings, if_neg (by simp [hany]), if_pos hph]
    exact ⟨hres, by rw [hres]; rfl, by rw [authCallCount, hres]⟩
  · intro s hall hph
    have hany : (requiredFields s).any (fun p => falsyOpt p.2) = false := by
      rw [List.any_eq_false]
      intro p hp
      simp [hall p hp]
    rw [authCallCount, load_credentials_from_settings, if_neg (by simp [hany]), if_neg hph]

/-- Witness for C9: a settings file with an empty `app_id` and a missing
`app_secret` aborts before any call, naming both offending fields. -/
theorem credential_gate_witness :
    load_credentials_from_settings ⟨some "", none, some "u", some "pw"⟩ =
      .missingFields (((requiredFields ⟨some "", none, some "u", some "pw"⟩).filter
        (fun p => falsyOpt p.2)).map (fun p => p.1)) ∧
    (∀ p ∈ requiredFields ⟨some "", none, some "u", some "pw"⟩, falsyOpt p.2 = true →
      p.1 ∈ namedFields
        (load_credentials_from_settings ⟨some "", none, some "u", some "pw"⟩)) ∧
    authCallCount ⟨some "", none, some "u", some "pw"⟩ = 0 :=
  credential_gate.1 ⟨some "", none, some "u", some "pw"⟩ (by decide)

/-- Counterexample to C9 as stated: with `app_id` still holding the
placeholder `YOUR_APP_ID` (and the other fields filled in), the probe
aborts, but the placeholder failure names no field at all — in
particular not the offending `app_id`. -/
theorem credential_gate_counterexample :
    load_credentials_from_settings
        ⟨some "YOUR_APP_ID", some "sec", some "u@example.com", some "pw"⟩ =
      .placeholderError ∧
    namedFields CredLoadResult.placeholderError = [] ∧
    "app_id" ∉ namedFields (load_credentials_from_settings
      ⟨some "YOUR_APP_ID", some "sec", some "u@example.com", some "pw"⟩) ∧
    authCallCount ⟨some "YOUR_APP_ID", some "sec", some "u@example.com", some "pw"⟩ = 0 := by
  decide

/-! ## Claim C6 — dry-run frame and the deletion phase -/

lemma syncCopy_dry_effects (dest source : List (String × FileMeta)) :
    ∀ acc : Nat × Nat × List FsEffect,
      (source.foldl (syncCopyStep dest true) acc).2.2 = acc.2.2 := by
  induction source with
  | nil => intro acc; rfl
  | cons f rest ih =>
    intro acc
    rw [List.foldl_cons, ih]
    simp only [syncCopyStep, copy_file_with_structure]
    split <;> simp

lemma syncCopy_no_remove (dest source : List (String × FileMeta)) :
    ∀ (acc : Nat × Nat × List FsEffect) (rel : String),
      FsEffect.removeFile rel ∉ acc.2.2 →
      FsEffect.removeFile rel ∉ (source.foldl (syncCopyStep dest false) acc).2.2 := by
  induction source with
  | nil => intro acc rel h; exact h
  | cons f rest ih =>
    intro acc rel h
    rw [List.foldl_cons]
    apply ih
    simp only [syncCopyStep, copy_file_with_structure]
    split <;> simp_all

lemma map_singleton_flatten {α β : Type} (f : α → β) (l : List α) :
    (l.map (fun x => [f x])).flatten = l.map f := by
  induction l with
  | nil => rfl
  | cons x xs ih => simp [ih]

lemma sync_effects_decomp (source dest : List (String × FileMeta))
    (destRootExists dry_run delete_extra : Bool) (hsrc : source ≠ []) :
    (sync_music_model source dest destRootExists dry_run delete_extra).effects =
      (if !destRootExists && !dry_run then [FsEffect.mkdirDest] else []) ++
      (source.foldl (syncCopyStep dest dry_run) (0, 0, [])).2.2 ++
      (if delete_extra && !dry_run then (extraFiles source dest).map FsEffect.removeFile
       else []) := by
  simp only [sync_music_model]
  rw [if_neg hsrc]
  by_cases h : (delete_extra && !dry_run) = true
  · rw [if_pos h, if_pos h]
    have hdr : (!dry_run) = true := by
      simp only [Bool.and_eq_true] at h
      exact h.2
    simp [hdr, map_singleton_flatten]
  · rw [if_neg h, if_neg h]
    simp

/-- C6: a dry run emits no filesystem effect at all, and a deletion
effect occurs exactly when `--delete` is given, `--dry-run` is absent,
the source tree is non-empty (an empty one returns early at lines
149-151, before the confirm, copy and deletion phases) and the file is a
destination extra; but — the code-bug part — a dry run does *not*
perform the extra-file scan of a normal `--delete` run: on the same
non-empty-source input, the normal run reports `deleted = 1` and removes
the extra file while the dry run reports `deleted = 0` instead of
previewing the deletion. -/
theorem sync_dry_run_effects :
    (∀ (source dest : List (String × FileMeta)) (destRootExists delete_extra : Bool),
      (sync_music_model source dest destRootExists true delete_extra).effects = []) ∧
    (∀ (source dest : List (String × FileMeta)) (destRootExists dry_run delete_extra : Bool)
       (rel : String),
      FsEffect.removeFile rel ∈
          (sync_music_model source dest destRootExists dry_run delete_extra).effects ↔
        delete_extra = true ∧ dry_run = false ∧ source ≠ [] ∧ rel ∈ extraFiles source dest) ∧
    sync_music_model [("a", ⟨0, 1⟩)] [("x", ⟨0, 1⟩)] true true true =
      ⟨1, 0, 0, []⟩ ∧
    sync_music_model [("a", ⟨0, 1⟩)] [("x", ⟨0, 1⟩)] true false true =
      ⟨1, 0, 1, [FsEffect.mkdirFor "a", FsEffect.copyFile "a", FsEffect.removeFile "x"]⟩ ∧
    sync_music_model [] [("x", ⟨0, 1⟩)] true false true =
      ⟨0, 0, 0, []⟩ := by
  refine ⟨?_, ?_, by decide, by decide, by decide⟩
  · intro source dest destRootExists delete_extra
    by_cases hsrc : source = []
    · subst hsrc
      simp [sync_music_model]
    · rw [sync_effects_decomp source dest destRootExists true delete_extra hsrc,
        syncCopy_dry_effects]
      simp
  · intro source dest destRootExists dry_run delete_extra rel
    by_cases hsrc : source = []
    · subst hsrc
      show FsEffect.removeFile rel ∈
          (if !destRootExists && !dry_run then [FsEffect.mkdirDest] else []) ↔ _
      constructor
      · intro h
        exfalso
        revert h
        split <;> simp
      · rintro ⟨_, _, hne, _⟩
        exact absurd rfl hne
    · rw [sync_effects_decomp source dest destRootExists dry_run delete_extra hsrc]
      simp only [List.mem_append]
      cases dry_run with
      | true =>
        rw [syncCopy_dry_effects]
        simp
      | false =>
        have hcopy : FsEffect.removeFile rel ∉
            (source.foldl (syncCopyStep dest false) (0, 0, [])).2.2 :=
          syncCopy_no_remove dest source (0, 0, []) rel (by simp)
        have hroot : ∀ (b : Bool),
            FsEffect.removeFile rel ∉ (if b = true then [FsEffect.mkdirDest] else []) := by
          intro b
          split <;> simp
        cases delete_extra with
        | false =>
          simp only [Bool.false_and, Bool.not_false, Bool.and_true]
          constructor
          · rintro ((h | h) | h)
            · exact absurd h (hroot _)
            · exact absurd h hcopy
            · simp at h
          · rintro ⟨h1, _, _⟩
            cases h1
        | true =>
          simp only [Bool.not_false, Bool.and_true, if_pos]
          constructor
          · rintro ((h | h) | h)
            · exact absurd h (hroot _)
            · exact absurd h hcopy
            · rw [List.mem_map] at h
              obtain ⟨r, hr, he⟩ := h
              refine ⟨by trivial, by trivial, hsrc, ?_⟩
              cases he
              exact hr
          · rintro ⟨_, _, _, h3⟩
            exact Or.inr (List.mem_map_of_mem _ h3)
